import Mathlib

/-!
Shallow embedding of the y0za/interfake repository (Go).

`model.go` provides the type-expression algebra (the `Type` tagged union with
package-qualification-aware rendering and package-path collection) and the
interface/method model.  `parse.go` provides the source walker that converts a
syntax tree into that model.  Go strings become Lean `String`, Go maps become
association lists with first-match lookup (keys are unique by construction),
Go's `map[string]struct{}` set becomes `Finset String`, and fallible Go code
returns `Except`.
-/

/-- PackageTable: correspondence of package path to package name
(Go `map[string]string`, model.go). -/
abbrev PackageTable := List (String × String)

/-- Association-list model of a Go map lookup (first match wins; keys are kept
unique by construction wherever maps are built). -/
def mapLookup : List (String × String) → String → Option String
  | [], _ => none
  | (a, v) :: rest, k => if k = a then some v else mapLookup rest k

/-- Go map indexing `pt[k]`: returns the zero value `""` on a missing key. -/
def tableGet (pt : PackageTable) (k : String) : String :=
  match mapLookup pt k with
  | some v => v
  | none => ""

/-- PackagePathSet records package paths that are used (model.go). -/
abbrev PackagePathSet := Finset String

/-- ChanDir is a channel direction (model.go, an `int`). -/
abbrev ChanDir := Int

/-- SendDirection = 1 << 0 (model.go). -/
def SendDirection : ChanDir := 1

/-- RecvDirection = 1 << 1 (model.go). -/
def RecvDirection : ChanDir := 2

/-- The model.Type tagged union of model.go: ArrayType, SliceType, ChanType,
FuncType, MapType, NamedType, PointerType, PredeclaredType.  A `*Parameter` in
a FuncType is its (Name, Type) pair. -/
inductive Ty where
  | arrayType (len : Int) (elem : Ty)
  | sliceType (elem : Ty)
  | chanType (direction : ChanDir) (elem : Ty)
  | funcType (args results : List (String × Ty))
  | mapType (key value : Ty)
  | namedType (pkg name : String)
  | pointerType (elem : Ty)
  | predeclaredType (name : String)

/-- Parameter (model.go): Name (may be empty) and Type. -/
abbrev Param := String × Ty

mutual

/-- The `String(pt PackageTable) string` method of each model.Type variant
(model.go): ArrayType `"[%d]" + elem`, SliceType `"[]" + elem`, ChanType with
direction prefix, FuncType with comma-joined args and arity-dependent results,
MapType `"map[" + key + "]" + value`, NamedType `pt[pkg] + "." + name` (or the
bare name when Package is empty), PointerType `"*" + elem`, PredeclaredType
itself. -/
def Ty.string : PackageTable → Ty → String
  | pt, .arrayType len t => "[" ++ toString len ++ "]" ++ Ty.string pt t
  | pt, .sliceType t => "[]" ++ Ty.string pt t
  | pt, .chanType dir t =>
      if dir = RecvDirection then "<-chan " ++ Ty.string pt t
      else if dir = SendDirection then "chan<- " ++ Ty.string pt t
      else "chan " ++ Ty.string pt t
  | pt, .funcType args results =>
      let resultsStr := String.intercalate ", " (paramTypeStrings pt results)
      let resultsStr2 :=
        if results.length = 1 then " " ++ resultsStr
        else if 1 < results.length then " (" ++ resultsStr ++ ")"
        else resultsStr
      "func(" ++ String.intercalate ", " (paramTypeStrings pt args) ++ ")" ++ resultsStr2
  | pt, .mapType k v => "map[" ++ Ty.string pt k ++ "]" ++ Ty.string pt v
  | pt, .namedType pkg n => if pkg = "" then n else tableGet pt pkg ++ "." ++ n
  | pt, .pointerType t => "*" ++ Ty.string pt t
  | _, .predeclaredType n => n

/-- The per-parameter `p.Type.String(pt)` loop bodies of FuncType.String
(model.go): the list of rendered parameter types, in order. -/
def paramTypeStrings : PackageTable → List (String × Ty) → List String
  | _, [] => []
  | pt, p :: ps => Ty.string pt p.2 :: paramTypeStrings pt ps

end

mutual

/-- The `addPackagePaths(pps PackagePathSet)` method of each model.Type
variant (model.go); the mutated set is passed and returned explicitly.  Only
NamedType with a non-empty Package inserts anything. -/
def Ty.addPackagePaths : Ty → PackagePathSet → PackagePathSet
  | .arrayType _ t, pps => Ty.addPackagePaths t pps
  | .sliceType t, pps => Ty.addPackagePaths t pps
  | .chanType _ t, pps => Ty.addPackagePaths t pps
  | .funcType args results, pps =>
      addPackagePathsList results (addPackagePathsList args pps)
  | .mapType k v, pps => Ty.addPackagePaths v (Ty.addPackagePaths k pps)
  | .namedType pkg _, pps => if pkg ≠ "" then insert pkg pps else pps
  | .pointerType t, pps => Ty.addPackagePaths t pps
  | .predeclaredType _, pps => pps

/-- The `for _, p := range ... p.Type.addPackagePaths(pps)` loops of
FuncType.addPackagePaths and Method.addPackagePaths (model.go). -/
def addPackagePathsList : List (String × Ty) → PackagePathSet → PackagePathSet
  | [], pps => pps
  | p :: ps, pps => addPackagePathsList ps (Ty.addPackagePaths p.2 pps)

end

/-- Method (model.go): a single method of an interface. -/
structure Method where
  Name : String
  Args : List Param
  Results : List Param

/-- Method.addPackagePaths (model.go): Args first, then Results. -/
def Method.addPackagePaths (m : Method) (pps : PackagePathSet) : PackagePathSet :=
  addPackagePathsList m.Results (addPackagePathsList m.Args pps)

/-- Interface (model.go): a Go interface. -/
structure Interface where
  Name : String
  Methods : List Method

/-- Interface.PackagePaths (model.go): starts from a fresh empty set and folds
`method.addPackagePaths` over the methods. -/
def Interface.PackagePaths (intf : Interface) : PackagePathSet :=
  intf.Methods.foldl (fun pps m => m.addPackagePaths pps) ∅

/-- GoFile (model.go): a .go file. -/
structure GoFile where
  PackageName : String
  Interfaces : List Interface

mutual

/-- Specification-side path collection: the set of all non-empty
`Named.Package` values in a tree, defined as the union of the sets collected
from each child subtree. -/
def collectSpec : Ty → Finset String
  | .arrayType _ t => collectSpec t
  | .sliceType t => collectSpec t
  | .chanType _ t => collectSpec t
  | .funcType args results => paramsSpec args ∪ paramsSpec results
  | .mapType k v => collectSpec k ∪ collectSpec v
  | .namedType pkg _ => if pkg ≠ "" then {pkg} else ∅
  | .pointerType t => collectSpec t
  | .predeclaredType _ => ∅

/-- Specification-side path collection over a parameter list: the union of
the per-parameter type collections. -/
def paramsSpec : List (String × Ty) → Finset String
  | [] => ∅
  | p :: ps => collectSpec p.2 ∪ paramsSpec ps

end

/-- Specification-side paths of a method: union over its args and results. -/
def Method.pathsSpec (m : Method) : Finset String :=
  paramsSpec m.Args ∪ paramsSpec m.Results

/-- Specification-side fold of path collection over a method list. -/
def methodsSpec : List Method → Finset String
  | [] => ∅
  | m :: ms => Method.pathsSpec m ∪ methodsSpec ms

/-- A resolved token position (filename, line, column), as fileParser.errorf
reports it through fileSet.Position (parse.go). -/
structure Pos where
  filename : String
  line : Nat
  col : Nat
deriving DecidableEq

/-- A Go error value as this program builds them: fileParser.errorf produces
a message annotated with filename, line and column; plain fmt.Errorf produces
a bare message; a runtime panic (failed type assertion, nil dereference) is
recorded separately because it is not an error return. -/
inductive GoErr where
  | posErr (filename : String) (line col : Nat) (msg : String)
  | plainErr (msg : String)
  | panicErr (msg : String)
deriving DecidableEq

/-- fileParser.errorf (parse.go): prepends "%s:%d:%d: ", resolved from the
token position, to the message. -/
def errorf (pos : Pos) (msg : String) : GoErr :=
  .posErr pos.filename pos.line pos.col msg

/-- True exactly for errors annotated with filename, line and column. -/
def GoErr.hasPosition : GoErr → Bool
  | .posErr .. => true
  | _ => false

/-- The err.Error() string of an error, as %v renders it when wrapping. -/
def GoErr.message : GoErr → String
  | .posErr f l c m => f ++ ":" ++ toString l ++ ":" ++ toString c ++ ": " ++ m
  | .plainErr m => m
  | .panicErr m => m

/-- Wrapping a nested error with errorf("...: %v", err) as parseFunc does; a
panic is not an error value and propagates unchanged. -/
def wrapErr (pos : Pos) (lead : String) : GoErr → GoErr
  | .panicErr m => .panicErr m
  | e => errorf pos (lead ++ e.message)

mutual

/-- The go/ast type-expression nodes parse.go inspects, each carrying its
resolved source position.  An array length is nil or an expression; the
parameter, result and member lists model `*ast.FieldList` (nil or a list).
`otherExpr` stands for every other ast.Expr dynamic type, carrying its %T
name. -/
inductive Expr where
  | arrayType (pos : Pos) (len : Option Expr) (elt : Expr)
  | chanType (pos : Pos) (dir : Nat) (value : Expr)
  | funcType (pos : Pos) (params results : Option (List FieldNode))
  | ident (pos : Pos) (name : String)
  | interfaceType (pos : Pos) (methods : Option (List FieldNode))
  | mapType (pos : Pos) (key value : Expr)
  | selectorExpr (pos : Pos) (x : Expr) (sel : String)
  | starExpr (pos : Pos) (x : Expr)
  | structType (pos : Pos) (fields : Option (List FieldNode))
  | basicLit (pos : Pos) (value : String)
  | otherExpr (pos : Pos) (goType : String)

/-- ast.Field: a list of names and a type expression. -/
inductive FieldNode where
  | mk (names : List String) (type_ : Expr)

end

/-- The names of an ast.Field. -/
def FieldNode.names : FieldNode → List String
  | .mk ns _ => ns

/-- The type expression of an ast.Field. -/
def FieldNode.type_ : FieldNode → Expr
  | .mk _ t => t

/-- ast.SEND. -/
def astSEND : Nat := 1

/-- ast.RECV. -/
def astRECV : Nat := 2

/-- The %T dynamic type name of an embedded ast.Expr node. -/
def exprGoTypeName : Expr → String
  | .arrayType .. => "*ast.ArrayType"
  | .chanType .. => "*ast.ChanType"
  | .funcType .. => "*ast.FuncType"
  | .ident .. => "*ast.Ident"
  | .interfaceType .. => "*ast.InterfaceType"
  | .mapType .. => "*ast.MapType"
  | .selectorExpr .. => "*ast.SelectorExpr"
  | .starExpr .. => "*ast.StarExpr"
  | .structType .. => "*ast.StructType"
  | .basicLit .. => "*ast.BasicLit"
  | .otherExpr _ goType => goType

/-- Whether a node's dynamic type is *ast.FuncType (the `case *ast.FuncType`
test of parseInterface). -/
def Expr.isFuncType : Expr → Bool
  | .funcType .. => true
  | _ => false

/-- ast.IsExported: the identifier starts with an upper-case letter (ASCII
model of unicode.IsUpper; identifiers are never empty). -/
def isExported (n : String) : Bool :=
  match n.toList with
  | [] => false
  | c :: _ => c.isUpper

/-- strconv.Atoi, modelled from the Go standard library's documented
behaviour: an optional single leading sign followed by decimal digits; the
empty string, a stray character and out-of-64-bit-range values are errors. -/
def goAtoi (s : String) : Except String Int :=
  let chars := s.toList
  let digits := if chars.headD ' ' = '-' ∨ chars.headD ' ' = '+' then chars.tail else chars
  if digits = [] ∨ digits.all Char.isDigit = false then
    Except.error ("strconv.Atoi: parsing \"" ++ s ++ "\": invalid syntax")
  else
    let v : Nat := digits.foldl (fun a c => a * 10 + (c.toNat - 48)) 0
    if chars.headD ' ' = '-' then
      if v ≤ 9223372036854775808 then Except.ok (-(v : Int))
      else Except.error ("strconv.Atoi: parsing \"" ++ s ++ "\": value out of range")
    else
      if v ≤ 9223372036854775807 then Except.ok (v : Int)
      else Except.error ("strconv.Atoi: parsing \"" ++ s ++ "\": value out of range")

/-- Whether a literal string carries a leading sign character.  Literal
tokens produced by the Go parser never do. -/
def hasSign (s : String) : Bool :=
  decide (s.toList.headD ' ' = '-' ∨ s.toList.headD ' ' = '+')

/-- strings.HasSuffix. -/
def goHasSuffix (s suffix : String) : Bool :=
  List.isSuffixOf suffix.toList s.toList

/-- path.Split's file component: the part of the path after the final "/". -/
def pathLastSegment (s : String) : String :=
  ((s.toList.reverse.takeWhile fun c => c ≠ '/').reverse).asString

/-- strings.SplitN(s, ".", 2)[0]: the part before the first dot. -/
def beforeFirstDot (s : String) : String :=
  (s.toList.takeWhile fun c => c ≠ '.').asString

/-- is.Path.Value[1 : len(is.Path.Value)-1]: strip the surrounding quotes of
an import path literal. -/
def unquote (s : String) : String :=
  ((s.toList.drop 1).dropLast).asString

/-- ast.ImportSpec: the optional alias identifier and the quoted import path
literal. -/
structure ImportSpec where
  name : Option String
  path : String
deriving DecidableEq

/-- The package identifier an import contributes (importsOfFile, parse.go):
an explicit alias verbatim, none for the blank alias "_", otherwise the build
oracle's package name for the import path, falling back to the path's last
segment truncated at the first dot when the oracle fails. -/
def resolvedName (oracle : String → Option String) (i : ImportSpec) : Option String :=
  match i.name with
  | some n => if n = "_" then none else some n
  | none =>
      let importPath := unquote i.path
      match oracle importPath with
      | some pkgName => some pkgName
      | none => some (beforeFirstDot (pathLastSegment importPath))

/-- The import loop of importsOfFile (parse.go): builds the package-name →
import-path map, failing on a duplicate identifier. -/
def importsLoop (oracle : String → Option String) :
    List ImportSpec → List (String × String) → Except GoErr (List (String × String))
  | [], m => .ok m
  | i :: rest, m =>
      match resolvedName oracle i with
      | none => importsLoop oracle rest m
      | some pkgName =>
          if (mapLookup m pkgName).isSome then
            .error (.plainErr ("imported package collision: \"" ++ pkgName
              ++ "\" imported twice"))
          else importsLoop oracle rest (m ++ [(pkgName, unquote i.path)])

/-- A TypeSpec inside a GenDecl, or any other spec shape. -/
inductive TypeSpecNode where
  | typeSpec (name : String) (type_ : Expr)
  | otherSpec

/-- A top-level declaration as interfacesOfFile inspects it: a GenDecl whose
token is TYPE, a GenDecl with another token, or any other declaration. -/
inductive Decl where
  | genDeclType (specs : List TypeSpecNode)
  | genDeclOther (specs : List TypeSpecNode)
  | otherDecl

/-- ast.File: package name, import specs and top-level declarations. -/
structure AstFile where
  name : String
  imports : List ImportSpec
  decls : List Decl

/-- importsOfFile (parse.go): the map of package name to import path of the
imports in the file. -/
def importsOfFile (oracle : String → Option String) (file : AstFile) :
    Except GoErr (List (String × String)) :=
  importsLoop oracle file.imports []

/-- interfacesOfFile (parse.go): the named interface type specifications in
declaration order; non-TYPE GenDecls, non-TypeSpecs and non-interface types
are skipped. -/
def interfacesOfFile (file : AstFile) : List (String × Option (List FieldNode)) :=
  file.decls.flatMap fun d =>
    match d with
    | .genDeclType specs =>
        specs.filterMap fun s =>
          match s with
          | .typeSpec n (.interfaceType _ methods) => some (n, methods)
          | _ => none
    | _ => []

mutual

/-- fileParser.parseType (parse.go) over the embedded syntax tree; `imports`
and `pkg` play the roles of p.imports and the pkg argument. -/
def parseType (imports : List (String × String)) (pkg : String) : Expr → Except GoErr Ty
  | .arrayType _ lenE elt => do
      let ln : Int ←
        match lenE with
        | none => pure (-1)
        | some (.basicLit lpos value) =>
            match goAtoi value with
            | .error msg => Except.error (errorf lpos ("bad array size: " ++ msg))
            | .ok x => pure x
        | some e => Except.error (GoErr.panicErr
            ("interface conversion: ast.Expr is " ++ exprGoTypeName e ++ ", not *ast.BasicLit"))
      let t ← parseType imports pkg elt
      if ln = -1 then pure (Ty.sliceType t) else pure (Ty.arrayType ln t)
  | .chanType _ dir value => do
      let t ← parseType imports pkg value
      let d0 : ChanDir := 0
      let d1 := if dir = astSEND then SendDirection else d0
      let d2 := if dir = astRECV then RecvDirection else d1
      pure (Ty.chanType d2 t)
  | .funcType fpos params results => do
      let args ← parseFieldListOpt imports pkg fpos "failed parsing arguments: " params
      let res ← parseFieldListOpt imports pkg fpos "failed parsing results: " results
      pure (Ty.funcType args res)
  | .ident _ n =>
      if isExported n then
        let pkg2 :=
          match mapLookup imports pkg with
          | some maybeImportedPkg => maybeImportedPkg
          | none => pkg
        pure (Ty.namedType pkg2 n)
      else
        pure (Ty.predeclaredType n)
  | .interfaceType ipos methods =>
      match methods with
      | some (_ :: _) => Except.error (errorf ipos "can't handle non-empty unnamed interface types")
      | _ => pure (Ty.predeclaredType "interface\x7b\x7d")
  | .mapType _ key value => do
      let k ← parseType imports pkg key
      let v ← parseType imports pkg value
      pure (Ty.mapType k v)
  | .selectorExpr spos x sel =>
      match x with
      | .ident _ pkgName =>
          (match mapLookup imports pkgName with
           | none => Except.error (errorf spos ("unknown package \"" ++ pkgName ++ "\""))
           | some pkg2 => pure (Ty.namedType pkg2 sel))
      | e => Except.error (GoErr.panicErr
          ("interface conversion: ast.Expr is " ++ exprGoTypeName e ++ ", not *ast.Ident"))
  | .starExpr _ x => do
      let t ← parseType imports pkg x
      pure (Ty.pointerType t)
  | .structType spos fields =>
      match fields with
      | some (_ :: _) => Except.error (errorf spos "can't handle non-empty unnamed struct types")
      | _ => pure (Ty.predeclaredType "struct\x7b\x7d")
  | .basicLit _ _ => Except.error (.plainErr "don't know how to parse type *ast.BasicLit")
  | .otherExpr _ goType => Except.error (.plainErr ("don't know how to parse type " ++ goType))

/-- One `if f.X != nil { ... parseFieldList ... }` block of parseFunc
(parse.go): a nil FieldList contributes no parameters; otherwise the field
list is parsed and a failure is wrapped with the function position and the
given lead text. -/
def parseFieldListOpt (imports : List (String × String)) (pkg : String) (fpos : Pos)
    (lead : String) : Option (List FieldNode) → Except GoErr (List Param)
  | none => pure []
  | some fl => (parseFieldList imports pkg fl).mapError (wrapErr fpos lead)

/-- fileParser.parseFieldList (parse.go): a field with no names yields one
anonymous Parameter; a field with names yields one Parameter per name, all
with the same resolved type, in order. -/
def parseFieldList (imports : List (String × String)) (pkg : String) :
    List FieldNode → Except GoErr (List Param)
  | [] => pure []
  | .mk names ftype :: fs => do
      let t ← parseType imports pkg ftype
      let rest ← parseFieldList imports pkg fs
      if names = [] then
        pure (("", t) :: rest)
      else
        pure (names.map (fun n => (n, t)) ++ rest)

end

/-- fileParser.parseFunc (parse.go): parses the parameter and result field
lists of a function type, wrapping failures with the function position.  The
funcType case of parseType executes this same body inline. -/
def parseFunc (imports : List (String × String)) (pkg : String) (fpos : Pos)
    (params results : Option (List FieldNode)) : Except GoErr (List Param × List Param) := do
  let args ← parseFieldListOpt imports pkg fpos "failed parsing arguments: " params
  let res ← parseFieldListOpt imports pkg fpos "failed parsing results: " results
  pure (args, res)

/-- The method-field loop of fileParser.parseInterface (parse.go). -/
def parseMethods (imports : List (String × String)) (intfName pkg : String) :
    List FieldNode → Except GoErr (List Method)
  | [] => pure []
  | .mk names ftype :: rest =>
      match ftype with
      | .funcType fpos params results =>
          if names.length ≠ 1 then
            Except.error (.plainErr ("expected one name for interface " ++ intfName
              ++ ", got " ++ toString names.length))
          else do
            let ar ← parseFunc imports pkg fpos params results
            let ms ← parseMethods imports intfName pkg rest
            pure ({ Name := names.headD "", Args := ar.1, Results := ar.2 } :: ms)
      | t => Except.error (.plainErr ("don't know how to mock method of type "
          ++ exprGoTypeName t))

/-- fileParser.parseInterface (parse.go). -/
def parseInterface (imports : List (String × String)) (name pkg : String)
    (fields : List FieldNode) : Except GoErr Interface := do
  let ms ← parseMethods imports name pkg fields
  pure { Name := name, Methods := ms }

/-- The interface loop of fileParser.parseFile (parse.go); ranging over a nil
Methods field list would dereference a nil pointer, recorded as a panic. -/
def parseInterfaces (imports : List (String × String)) (pkg : String) :
    List (String × Option (List FieldNode)) → Except GoErr (List Interface)
  | [] => pure []
  | (_, none) :: _ =>
      Except.error (.panicErr "runtime error: invalid memory address or nil pointer dereference")
  | (n, some fields) :: rest => do
      let i ← parseInterface imports n pkg fields
      let rest2 ← parseInterfaces imports pkg rest
      pure (i :: rest2)

/-- fileParser.parseFile (parse.go). -/
def parseFile (oracle : String → Option String) (file : AstFile) (pkg : String) :
    Except GoErr GoFile := do
  let imports ← importsOfFile oracle file
  let is ← parseInterfaces imports pkg (interfacesOfFile file)
  pure { PackageName := file.name, Interfaces := is }

/-- parseFiles (parse.go): each input is a file name paired with the outcome
of parser.ParseFile for it (the external Go parser, a black box here: either
a syntax tree or an error message).  Non-.go names are skipped; the first
failure aborts with no partial result. -/
def parseFiles (oracle : String → Option String) (pkg : String) :
    List (String × Except String AstFile) → Except GoErr (List GoFile)
  | [] => pure []
  | (name, parsed) :: rest =>
      if goHasSuffix name ".go" = false then parseFiles oracle pkg rest
      else
        match parsed with
        | .error msg => Except.error (.plainErr
            ("failed parsing source file " ++ name ++ ": " ++ msg))
        | .ok file => do
            let gf ← parseFile oracle file pkg
            let gfs ← parseFiles oracle pkg rest
            pure (gf :: gfs)


/-- A fixed position for concrete test inputs. -/
def pos0 : Pos := ⟨"f.go", 3, 7⟩

/-- A build oracle that always fails (never resolves a package name). -/
def oracleNone : String → Option String := fun _ => none

/-- A concrete file whose two imports alias the same identifier "x" for two
distinct import paths. -/
def fileCollide : AstFile :=
  { name := "sample"
  , imports := [⟨some "x", "\"p1\""⟩, ⟨some "x", "\"p2\""⟩]
  , decls := [] }
mutual

/-- addPackagePaths is set union: adding a tree's paths to any target set
yields that set unioned with the tree's collected path set. -/
theorem addPackagePaths_eq_union : ∀ (t : Ty) (s : PackagePathSet),
    Ty.addPackagePaths t s = s ∪ collectSpec t
  | .arrayType len t, s => by
      simp only [Ty.addPackagePaths, collectSpec, addPackagePaths_eq_union t s]
  | .sliceType t, s => by
      simp only [Ty.addPackagePaths, collectSpec, addPackagePaths_eq_union t s]
  | .chanType dir t, s => by
      simp only [Ty.addPackagePaths, collectSpec, addPackagePaths_eq_union t s]
  | .funcType args results, s => by
      simp only [Ty.addPackagePaths, collectSpec,
        addPackagePathsList_eq_union args s,
        addPackagePathsList_eq_union results (s ∪ paramsSpec args),
        Finset.union_assoc]
  | .mapType k v, s => by
      simp only [Ty.addPackagePaths, collectSpec,
        addPackagePaths_eq_union k s,
        addPackagePaths_eq_union v (s ∪ collectSpec k),
        Finset.union_assoc]
  | .namedType pkg n, s => by
      by_cases h : pkg = ""
      · simp [Ty.addPackagePaths, collectSpec, h]
      · simp only [Ty.addPackagePaths, collectSpec, if_pos h, ne_eq, h,
          not_false_iff, if_true, Finset.insert_eq]
        rw [Finset.union_comm]
  | .pointerType t, s => by
      simp only [Ty.addPackagePaths, collectSpec, addPackagePaths_eq_union t s]
  | .predeclaredType n, s => by
      simp [Ty.addPackagePaths, collectSpec]

/-- addPackagePathsList is set union with the parameter list's collected
path set. -/
theorem addPackagePathsList_eq_union : ∀ (ps : List (String × Ty)) (s : PackagePathSet),
    addPackagePathsList ps s = s ∪ paramsSpec ps
  | [], s => by simp [addPackagePathsList, paramsSpec]
  | p :: ps, s => by
      simp only [addPackagePathsList, paramsSpec,
        addPackagePaths_eq_union p.2 s,
        addPackagePathsList_eq_union ps (s ∪ collectSpec p.2),
        Finset.union_assoc]

end

/-- Method.addPackagePaths is set union with the method's collected paths. -/
theorem methodAddPackagePaths_eq_union (m : Method) (s : PackagePathSet) :
    m.addPackagePaths s = s ∪ m.pathsSpec := by
  simp only [Method.addPackagePaths, Method.pathsSpec,
    addPackagePathsList_eq_union, Finset.union_assoc]

/-- The Interface.PackagePaths fold, started from any set, unions in each
method's collected paths. -/
theorem packagePaths_foldl_eq_union (ms : List Method) (s : PackagePathSet) :
    ms.foldl (fun pps m => m.addPackagePaths pps) s = s ∪ methodsSpec ms := by
  induction ms generalizing s with
  | nil => simp [methodsSpec]
  | cons m ms ih =>
      rw [List.foldl_cons, ih, methodAddPackagePaths_eq_union,
        Finset.union_assoc, methodsSpec]

/-- paramTypeStrings is the list of renderings of the parameter types. -/
theorem paramTypeStrings_eq_map (pt : PackageTable) :
    ∀ ps : List (String × Ty), paramTypeStrings pt ps = ps.map (fun p => Ty.string pt p.2)
  | [] => rfl
  | p :: ps => by rw [paramTypeStrings, List.map_cons, paramTypeStrings_eq_map pt ps]

/-- C1 counterexample: for a Named type with Package "p" and a table with no
entry for "p", Render produces "." ++ "T" — the qualifier is empty and the
output begins with the bare separator, and it is not the raw path segment
fallback "p.T" the claim describes. -/
theorem c1_counterexample :
    Ty.string [] (.namedType "p" "T") = "." ++ "T" ∧ "." ++ "T" ≠ "p" ++ "." ++ "T" :=
  ⟨rfl, by decide⟩

/-- C1 (amended): for every Named type expression with non-empty Package,
Render with a table that has no entry for that Package joins the empty string
(the Go zero value of the missing map entry) to the type name with the
separator: the output is "." ++ TypeName, a string beginning with the bare
separator; alias resolution failure is not an error, but no raw-path-segment
fallback occurs. -/
theorem c1_missing_alias_renders_dot (pt : PackageTable) (pkg tn : String)
    (hpkg : pkg ≠ "") (habsent : mapLookup pt pkg = none) :
    Ty.string pt (.namedType pkg tn) = "." ++ tn := by
  simp [Ty.string, tableGet, hpkg, habsent]

/-- C1 witness: the amended claim evaluated at Package "p", TypeName "T" and
the empty table. -/
theorem c1_missing_alias_witness :
    ("p" ≠ "" ∧ mapLookup [] "p" = none)
    ∧ Ty.string [] (.namedType "p" "T") = "." ++ "T" :=
  ⟨⟨by decide, rfl⟩, c1_missing_alias_renders_dot [] "p" "T" (by decide) rfl⟩

/-- C2 counterexample: a Func with two results renders as
"func() (int, string)" — with a leading space before the opening parenthesis
of the result list, not "func()(int, string)" as the claim requires. -/
theorem c2_counterexample :
    Ty.string [] (.funcType [] [("", .predeclaredType "int"), ("", .predeclaredType "string")])
        = "func() (int, string)"
    ∧ "func() (int, string)" ≠ "func()(int, string)" :=
  ⟨rfl, by decide⟩

/-- C2 (amended): for every Func type expression, Render joins the argument
type strings with ", " inside parentheses, and formats the results as:
nothing after the closing argument parenthesis when there are zero results; a
bare result type preceded by a leading space when there is exactly one
result; and a parenthesized comma-joined list preceded by a leading space
before the opening parenthesis when there are two or more results. -/
theorem c2_func_render (pt : PackageTable) (args results : List Param) :
    (results = [] →
      Ty.string pt (.funcType args results)
        = "func(" ++ String.intercalate ", " (args.map fun p => Ty.string pt p.2) ++ ")")
    ∧ (∀ r, results = [r] →
      Ty.string pt (.funcType args results)
        = "func(" ++ String.intercalate ", " (args.map fun p => Ty.string pt p.2) ++ ")"
          ++ (" " ++ Ty.string pt r.2))
    ∧ (2 ≤ results.length →
      Ty.string pt (.funcType args results)
        = "func(" ++ String.intercalate ", " (args.map fun p => Ty.string pt p.2) ++ ")"
          ++ (" (" ++ String.intercalate ", " (results.map fun p => Ty.string pt p.2) ++ ")")) := by
  refine ⟨fun h => ?_, fun r h => ?_, fun h => ?_⟩
  · subst h
    simp [Ty.string, paramTypeStrings_eq_map, String.intercalate, String.append_assoc]
  · subst h
    simp [Ty.string, paramTypeStrings_eq_map, String.intercalate, String.intercalate.go,
      String.append_assoc]
  · simp only [Ty.string, paramTypeStrings_eq_map]
    rw [if_neg (by omega), if_pos (by omega)]

/-- C2 witness: the amended claim evaluated on concrete Func values: zero
results, one result, and two results. -/
theorem c2_func_render_witness :
    Ty.string [] (.funcType [("x", .predeclaredType "int")] []) = "func(int)"
    ∧ Ty.string [] (.funcType [("x", .predeclaredType "int")] [("", .predeclaredType "error")])
        = "func(int) error"
    ∧ Ty.string [] (.funcType [] [("", .predeclaredType "int"), ("", .predeclaredType "string")])
        = "func() (int, string)" :=
  ⟨by rw [(c2_func_render [] [("x", .predeclaredType "int")] []).1 rfl]; rfl,
   by rw [(c2_func_render [] [("x", .predeclaredType "int")]
        [("", .predeclaredType "error")]).2.1 ("", .predeclaredType "error") rfl]; rfl,
   by rw [(c2_func_render [] []
        [("", .predeclaredType "int"), ("", .predeclaredType "string")]).2.2 (by decide)]; rfl⟩

/-- C5: CollectPackagePaths from the empty set is exactly the union of the
child-subtree collections (the set of all non-empty Named.Package values in
the tree); adding to an arbitrary target set is a pure union; running it
twice on the same target set is idempotent; and Interface.PackagePaths is the
fold of this collection over every method's args and results. -/
theorem c5_collect_package_paths :
    (∀ t : Ty, Ty.addPackagePaths t ∅ = collectSpec t)
    ∧ (∀ (t : Ty) (s : PackagePathSet), Ty.addPackagePaths t s = s ∪ collectSpec t)
    ∧ (∀ (t : Ty) (s : PackagePathSet),
        Ty.addPackagePaths t (Ty.addPackagePaths t s) = Ty.addPackagePaths t s)
    ∧ (∀ intf : Interface, intf.PackagePaths = methodsSpec intf.Methods) := by
  refine ⟨fun t => ?_, fun t s => addPackagePaths_eq_union t s, fun t s => ?_, fun intf => ?_⟩
  · rw [addPackagePaths_eq_union, Finset.empty_union]
  · rw [addPackagePaths_eq_union t s, addPackagePaths_eq_union,
      Finset.union_assoc, Finset.union_self]
  · rw [Interface.PackagePaths, packagePaths_foldl_eq_union, Finset.empty_union]

/-- C9: a Named type with Package "p" and TypeName "T" renders as "P.T" under
a table mapping "p" to "P"; a Named type with empty Package renders as its
bare type name under every table. -/
theorem c9_named_rendering :
    Ty.string [("p", "P")] (.namedType "p" "T") = "P.T"
    ∧ ∀ (pt : PackageTable) (tn : String), Ty.string pt (.namedType "" tn) = tn := by
  refine ⟨rfl, fun pt tn => ?_⟩
  simp [Ty.string]



/-- Keys present in a map stay present (and unchanged) after appending. -/
theorem mapLookup_append_left (m m2 : List (String × String)) (k : String)
    (h : (mapLookup m k).isSome = true) : mapLookup (m ++ m2) k = mapLookup m k := by
  induction m with
  | nil => simp [mapLookup] at h
  | cons p rest ih =>
      obtain ⟨a, v⟩ := p
      by_cases hk : k = a
      · simp [mapLookup, hk]
      · simp only [mapLookup, if_neg hk] at h ⊢
        exact ih h

/-- A key just appended to a map is found. -/
theorem mapLookup_append_single_isSome (m : List (String × String)) (k v : String) :
    (mapLookup (m ++ [(k, v)]) k).isSome = true := by
  induction m with
  | nil => simp [mapLookup]
  | cons p rest ih =>
      obtain ⟨a, w⟩ := p
      by_cases hk : k = a <;> simp [mapLookup, hk, ih]

/-- If some later import resolves to an identifier already present in the
accumulated map, the import loop fails with a collision error. -/
theorem importsLoop_collision_of_mem (oracle : String → Option String) (a : String)
    (l : List ImportSpec) :
    ∀ m : List (String × String),
      (∃ i ∈ l, resolvedName oracle i = some a) → (mapLookup m a).isSome = true →
      ∃ b, importsLoop oracle l m
        = .error (.plainErr ("imported package collision: \"" ++ b ++ "\" imported twice")) := by
  induction l with
  | nil => intro m hmem _; simp at hmem
  | cons i rest ih =>
      intro m hmem hsome
      rcases hres : resolvedName oracle i with _ | n
      · simp only [importsLoop, hres]
        refine ih m ?_ hsome
        rcases hmem with ⟨j, hj, hja⟩
        rcases List.mem_cons.mp hj with rfl | hjr
        · rw [hja] at hres; cases hres
        · exact ⟨j, hjr, hja⟩
      · simp only [importsLoop, hres]
        by_cases hlk : (mapLookup m n).isSome = true
        · rw [if_pos hlk]
          exact ⟨n, rfl⟩
        · rw [if_neg hlk]
          refine ih _ ?_ ?_
          · rcases hmem with ⟨j, hj, hja⟩
            rcases List.mem_cons.mp hj with rfl | hjr
            · rw [hja] at hres
              cases hres
              exact absurd hsome hlk
            · exact ⟨j, hjr, hja⟩
          · rw [mapLookup_append_left m _ a hsome]
            exact hsome

/-- Two imports resolving to the same identifier anywhere in the list make
the import loop fail with a collision error, from any starting map. -/
theorem importsLoop_collision (oracle : String → Option String) (a : String)
    (s1 s2 : ImportSpec)
    (h1 : resolvedName oracle s1 = some a) (h2 : resolvedName oracle s2 = some a)
    (l1 : List ImportSpec) :
    ∀ (l2 l3 : List ImportSpec) (m : List (String × String)),
      ∃ b, importsLoop oracle (l1 ++ s1 :: l2 ++ s2 :: l3) m
        = .error (.plainErr ("imported package collision: \"" ++ b ++ "\" imported twice")) := by
  induction l1 with
  | nil =>
      intro l2 l3 m
      simp only [List.nil_append, importsLoop, h1]
      by_cases hlk : (mapLookup m a).isSome = true
      · rw [if_pos hlk]
        exact ⟨a, rfl⟩
      · rw [if_neg hlk]
        refine importsLoop_collision_of_mem oracle a (l2 ++ s2 :: l3) _ ⟨s2, by simp, h2⟩ ?_
        exact mapLookup_append_single_isSome m a (unquote s1.path)
  | cons i l1x ih =>
      intro l2 l3 m
      rcases hres : resolvedName oracle i with _ | n
      · simp only [List.cons_append, importsLoop, hres]
        exact ih l2 l3 m
      · simp only [List.cons_append, importsLoop, hres]
        by_cases hlk : (mapLookup m n).isSome = true
        · rw [if_pos hlk]
          exact ⟨n, rfl⟩
        · rw [if_neg hlk]
          exact ih l2 l3 _

/-- parseFiles distributes over append: the first failure aborts the whole
batch, and on success the file lists concatenate. -/
theorem parseFiles_append (oracle : String → Option String) (pkg : String)
    (fs1 fs2 : List (String × Except String AstFile)) :
    parseFiles oracle pkg (fs1 ++ fs2)
      = (parseFiles oracle pkg fs1).bind fun gs1 =>
          (parseFiles oracle pkg fs2).map fun gs2 => gs1 ++ gs2 := by
  induction fs1 with
  | nil =>
      simp only [List.nil_append, parseFiles]
      cases h : parseFiles oracle pkg fs2 <;>
        simp [h, pure, Except.pure, Except.bind, Except.map]
  | cons nf rest ih =>
      obtain ⟨name, parsed⟩ := nf
      simp only [List.cons_append, parseFiles]
      by_cases hgo : goHasSuffix name ".go" = false
      · rw [if_pos hgo, if_pos hgo]
        exact ih
      · rw [if_neg hgo, if_neg hgo]
        cases parsed with
        | error msg => simp [Except.bind]
        | ok file =>
            simp only [List.append_eq, ih]
            cases hpf : parseFile oracle file pkg with
            | error e => simp [hpf, bind, Except.bind]
            | ok gf =>
                cases hr : parseFiles oracle pkg rest <;>
                  cases hf : parseFiles oracle pkg fs2 <;>
                    simp [hpf, hr, hf, bind, Except.bind, Except.map, pure, Except.pure]

/-- A file whose import table construction fails makes parseFile fail with
the same error. -/
theorem parseFile_err_of_imports (oracle : String → Option String) (file : AstFile)
    (pkg : String) (e : GoErr) (h : importsOfFile oracle file = .error e) :
    parseFile oracle file pkg = .error e := by
  simp [parseFile, h, bind, Except.bind]

/-- C3: two import declarations in one file whose aliases resolve to the same
in-file identifier but distinct import paths make the walk fail with a
collision error, and a batch containing that file yields an error and no
file list. -/
theorem c3_import_collision (oracle : String → Option String) (file : AstFile)
    (s1 s2 : ImportSpec) (l1 l2 l3 : List ImportSpec) (a pkg fname : String)
    (pre post : List (String × Except String AstFile))
    (hsplit : file.imports = l1 ++ s1 :: l2 ++ s2 :: l3)
    (h1 : resolvedName oracle s1 = some a) (h2 : resolvedName oracle s2 = some a)
    (_hpaths : s1.path ≠ s2.path)
    (hgo : goHasSuffix fname ".go" = true) :
    (∃ b, importsOfFile oracle file
        = .error (.plainErr ("imported package collision: \"" ++ b ++ "\" imported twice")))
    ∧ ∃ e, parseFiles oracle pkg (pre ++ (fname, .ok file) :: post) = .error e := by
  have hcol : ∃ b, importsOfFile oracle file
      = .error (.plainErr ("imported package collision: \"" ++ b ++ "\" imported twice")) := by
    rw [importsOfFile, hsplit]
    exact importsLoop_collision oracle a s1 s2 h1 h2 l1 l2 l3 []
  refine ⟨hcol, ?_⟩
  rcases hcol with ⟨b, hb⟩
  have hpf : parseFile oracle file pkg
      = .error (.plainErr ("imported package collision: \"" ++ b ++ "\" imported twice")) :=
    parseFile_err_of_imports oracle file pkg _ hb
  rw [parseFiles_append]
  cases hpre : parseFiles oracle pkg pre with
  | error e => exact ⟨e, by simp [Except.bind]⟩
  | ok gs =>
      refine ⟨.plainErr ("imported package collision: \"" ++ b ++ "\" imported twice"), ?_⟩
      have hcons : parseFiles oracle pkg ((fname, Except.ok file) :: post)
          = .error (.plainErr ("imported package collision: \"" ++ b ++ "\" imported twice")) := by
        simp only [parseFiles]
        rw [if_neg (by simp [hgo])]
        simp [hpf, bind, Except.bind]
      simp [hcons, Except.bind, Except.map]

/-- C3 witness: the collision theorem evaluated on a concrete file importing
paths "p1" and "p2" both under the alias "x", in a one-file batch. -/
theorem c3_import_collision_witness :
    (fileCollide.imports
        = [] ++ (⟨some "x", "\"p1\""⟩ : ImportSpec)
            :: [] ++ (⟨some "x", "\"p2\""⟩ : ImportSpec) :: []
      ∧ resolvedName oracleNone ⟨some "x", "\"p1\""⟩ = some "x"
      ∧ resolvedName oracleNone ⟨some "x", "\"p2\""⟩ = some "x"
      ∧ (⟨some "x", "\"p1\""⟩ : ImportSpec).path ≠ (⟨some "x", "\"p2\""⟩ : ImportSpec).path
      ∧ goHasSuffix "a.go" ".go" = true)
    ∧ ((∃ b, importsOfFile oracleNone fileCollide
          = .error (.plainErr ("imported package collision: \"" ++ b ++ "\" imported twice")))
      ∧ ∃ e, parseFiles oracleNone "mypkg"
          ([] ++ ("a.go", Except.ok fileCollide) :: []) = .error e) :=
  ⟨⟨rfl, rfl, rfl, by decide, by decide⟩,
   c3_import_collision oracleNone fileCollide ⟨some "x", "\"p1\""⟩ ⟨some "x", "\"p2\""⟩
     [] [] [] "x" "mypkg" "a.go" [] [] rfl rfl rfl (by decide) (by decide)⟩

/-- C4 counterexample: a batch whose single file has an import alias
collision fails with the plain "imported package collision" error, which
carries no filename, line, or column annotation — the claim that every
failure is so annotated is false. -/
theorem c4_counterexample :
    parseFiles oracleNone "mypkg" [("a.go", Except.ok fileCollide)]
        = .error (.plainErr "imported package collision: \"x\" imported twice")
    ∧ GoErr.hasPosition (.plainErr "imported package collision: \"x\" imported twice") = false := by
  constructor
  · simp [parseFiles, parseFile, importsOfFile, importsLoop, resolvedName, fileCollide,
      oracleNone, goHasSuffix, mapLookup, interfacesOfFile, parseInterfaces, unquote,
      pure, Except.pure, bind, Except.bind]
  · rfl

/-- C4 (amended): the walk aborts at the first failure and returns no partial
file list — a batch with a failing prefix returns exactly the prefix's error,
and only when the prefix succeeds is the rest parsed and its files appended.
Every failure is a terminal error; failures raised through the parser's
errorf helper carry filename, line, column and message, but import-collision,
method-shape and syntax-wrapper failures carry only a message. -/
theorem c4_first_failure_abort (oracle : String → Option String) (pkg : String)
    (fs1 fs2 : List (String × Except String AstFile)) :
    (∀ e, parseFiles oracle pkg fs1 = .error e →
      parseFiles oracle pkg (fs1 ++ fs2) = .error e)
    ∧ (∀ gs, parseFiles oracle pkg fs1 = .ok gs →
      parseFiles oracle pkg (fs1 ++ fs2)
        = (parseFiles oracle pkg fs2).map fun gs2 => gs ++ gs2) := by
  constructor
  · intro e he
    rw [parseFiles_append, he]
    rfl
  · intro gs hgs
    rw [parseFiles_append, hgs]
    cases parseFiles oracle pkg fs2 <;> simp [Except.bind, Except.map]

/-- C4 witness: a batch whose first file fails to parse aborts with that
file's error even when more files follow; an empty (successful) prefix
continues into the rest of the batch. -/
theorem c4_first_failure_abort_witness :
    (parseFiles oracleNone "mypkg" [("bad.go", Except.error "1:1: expected declaration")]
        = .error (.plainErr "failed parsing source file bad.go: 1:1: expected declaration")
      ∧ parseFiles oracleNone "mypkg"
          ([("bad.go", Except.error "1:1: expected declaration")]
            ++ [("a.go", Except.ok fileCollide)])
        = .error (.plainErr "failed parsing source file bad.go: 1:1: expected declaration"))
    ∧ (parseFiles oracleNone "mypkg" ([] : List (String × Except String AstFile)) = .ok []
      ∧ parseFiles oracleNone "mypkg"
          (([] : List (String × Except String AstFile)) ++ [("a.go", Except.ok fileCollide)])
        = (parseFiles oracleNone "mypkg" [("a.go", Except.ok fileCollide)]).map
            fun gs2 => [] ++ gs2) := by
  have h1 : parseFiles oracleNone "mypkg" [("bad.go", Except.error "1:1: expected declaration")]
      = .error (.plainErr "failed parsing source file bad.go: 1:1: expected declaration") := by
    have hgo : goHasSuffix "bad.go" ".go" = true := by decide
    simp [parseFiles, hgo]
  have h2 : parseFiles oracleNone "mypkg" ([] : List (String × Except String AstFile))
      = .ok [] := by
    simp [parseFiles, pure, Except.pure]
  exact ⟨⟨h1, (c4_first_failure_abort oracleNone "mypkg"
      [("bad.go", Except.error "1:1: expected declaration")]
      [("a.go", Except.ok fileCollide)]).1 _ h1⟩,
    ⟨h2, (c4_first_failure_abort oracleNone "mypkg" [] [("a.go", Except.ok fileCollide)]).2 [] h2⟩⟩

/-- A sign-free string accepted by strconv.Atoi denotes a non-negative
integer. -/
theorem goAtoi_nonneg {s : String} {x : Int} (hs : hasSign s = false)
    (h : goAtoi s = .ok x) : 0 ≤ x := by
  have hcond : ¬(s.toList.headD ' ' = '-' ∨ s.toList.headD ' ' = '+') := by
    simpa [hasSign] using hs
  simp only [goAtoi] at h
  rw [if_neg hcond] at h
  split at h
  · simp at h
  · rw [if_neg (fun hneg => hcond (Or.inl hneg))] at h
    split at h
    · injection h with h
      omega
    · simp at h

/-- C6: an interface field with a function-type signature and exactly one
name converts to a Method with that name; a function-type field with zero or
more than one names fails the whole conversion with the ambiguous-naming
error; a field whose type is not a function signature always fails. -/
theorem c6_method_field_conversion :
    (∀ (imports : List (String × String)) (iname pkg n : String) (fpos : Pos)
        (params results : Option (List FieldNode)) (rest : List FieldNode)
        (args res : List Param),
      parseFunc imports pkg fpos params results = .ok (args, res) →
      parseInterface imports iname pkg (.mk [n] (.funcType fpos params results) :: rest)
        = (parseInterface imports iname pkg rest).map
            fun i => ⟨iname, ⟨n, args, res⟩ :: i.Methods⟩)
    ∧ (∀ (imports : List (String × String)) (iname pkg : String) (names : List String)
        (fpos : Pos) (params results : Option (List FieldNode)) (rest : List FieldNode),
      names.length ≠ 1 →
      parseInterface imports iname pkg (.mk names (.funcType fpos params results) :: rest)
        = .error (.plainErr ("expected one name for interface " ++ iname
            ++ ", got " ++ toString names.length)))
    ∧ (∀ (imports : List (String × String)) (iname pkg : String) (names : List String)
        (ftype : Expr) (rest : List FieldNode),
      ftype.isFuncType = false →
      parseInterface imports iname pkg (.mk names ftype :: rest)
        = .error (.plainErr ("don't know how to mock method of type "
            ++ exprGoTypeName ftype))) := by
  refine ⟨?_, ?_, ?_⟩
  · intro imports iname pkg n fpos params results rest args res h
    cases hms : parseMethods imports iname pkg rest with
    | error e =>
        simp [parseInterface, parseMethods, h, hms, bind, Except.bind, Except.map,
          pure, Except.pure]
    | ok ms =>
        simp [parseInterface, parseMethods, h, hms, bind, Except.bind, Except.map,
          pure, Except.pure]
  · intro imports iname pkg names fpos params results rest h
    simp [parseInterface, parseMethods, h, bind, Except.bind]
  · intro imports iname pkg names ftype rest h
    cases ftype <;>
      simp_all [parseInterface, parseMethods, Expr.isFuncType, exprGoTypeName,
        bind, Except.bind]

/-- C6 witness: a one-name function field converts to the named Method; a
zero-name function field and a non-function field fail. -/
theorem c6_method_field_conversion_witness :
    (parseFunc [] "mypkg" pos0 none none = .ok ([], [])
      ∧ parseInterface [] "I" "mypkg" [.mk ["Do"] (.funcType pos0 none none)]
          = (parseInterface [] "I" "mypkg" []).map
              fun i => ⟨"I", ⟨"Do", [], []⟩ :: i.Methods⟩)
    ∧ (([] : List String).length ≠ 1
      ∧ parseInterface [] "I" "mypkg" [.mk [] (.funcType pos0 none none)]
          = .error (.plainErr "expected one name for interface I, got 0"))
    ∧ (Expr.isFuncType (.ident pos0 "x") = false
      ∧ parseInterface [] "I" "mypkg" [.mk ["Do"] (.ident pos0 "x")]
          = .error (.plainErr "don't know how to mock method of type *ast.Ident")) := by
  have hpf : parseFunc [] "mypkg" pos0 none none = .ok ([], []) := rfl
  refine ⟨⟨hpf, c6_method_field_conversion.1 [] "I" "mypkg" "Do" pos0 none none [] [] [] hpf⟩,
    ⟨by decide, ?_⟩, ⟨rfl, ?_⟩⟩
  · exact c6_method_field_conversion.2.1 [] "I" "mypkg" [] pos0 none none [] (by decide)
  · exact c6_method_field_conversion.2.2 [] "I" "mypkg" ["Do"] (.ident pos0 "x") [] rfl

/-- C7: a successful parameter-field-list conversion is exactly the in-order
field-by-field expansion — one anonymous Parameter for a field with no names,
and one Parameter per name (sharing the field's resolved type, in name order)
otherwise. -/
theorem c7_field_list_conversion (imports : List (String × String)) (pkg : String)
    (fields : List FieldNode) (ps : List Param)
    (h : parseFieldList imports pkg fields = .ok ps) :
    ps = fields.flatMap fun f =>
      match parseType imports pkg f.type_ with
      | .ok t => if f.names = [] then [("", t)] else f.names.map fun n => (n, t)
      | .error _ => [] := by
  induction fields generalizing ps with
  | nil =>
      simp only [parseFieldList, pure, Except.pure, Except.ok.injEq] at h
      simp [← h]
  | cons f fs ih =>
      obtain ⟨names, ftype⟩ := f
      cases hpt : parseType imports pkg ftype with
      | error e =>
          simp [parseFieldList, hpt, bind, Except.bind] at h
      | ok t =>
          cases hrest : parseFieldList imports pkg fs with
          | error e =>
              simp [parseFieldList, hpt, hrest, bind, Except.bind] at h
          | ok rest =>
              simp only [parseFieldList, hpt, hrest, bind, Except.bind, pure,
                Except.pure] at h
              by_cases hn : names = []
              · rw [if_pos hn] at h
                simp only [Except.ok.injEq] at h
                simp [← h, List.flatMap_cons, FieldNode.type_, FieldNode.names, hpt, hn,
                  ih rest hrest]
              · rw [if_neg hn] at h
                simp only [Except.ok.injEq] at h
                simp [← h, List.flatMap_cons, FieldNode.type_, FieldNode.names, hpt, hn,
                  ih rest hrest]

/-- C7 witness: a field with no names and a field with two names expand to
one anonymous parameter followed by two named parameters sharing a type. -/
theorem c7_field_list_conversion_witness :
    parseFieldList [] "mypkg"
        [.mk [] (.ident pos0 "int"), .mk ["a", "b"] (.ident pos0 "string")]
      = .ok [("", .predeclaredType "int"), ("a", .predeclaredType "string"),
             ("b", .predeclaredType "string")]
    ∧ [("", Ty.predeclaredType "int"), ("a", Ty.predeclaredType "string"),
        ("b", Ty.predeclaredType "string")]
      = [FieldNode.mk [] (.ident pos0 "int"),
         FieldNode.mk ["a", "b"] (.ident pos0 "string")].flatMap
          fun f => match parseType [] "mypkg" f.type_ with
            | .ok t => if f.names = [] then [("", t)] else f.names.map fun n => (n, t)
            | .error _ => [] := by
  have h : parseFieldList [] "mypkg"
      [.mk [] (.ident pos0 "int"), .mk ["a", "b"] (.ident pos0 "string")]
      = .ok [("", .predeclaredType "int"), ("a", .predeclaredType "string"),
             ("b", .predeclaredType "string")] := by
    simp [parseFieldList, parseType, isExported, pure, Except.pure, bind, Except.bind]
  exact ⟨h, c7_field_list_conversion [] "mypkg" _ _ h⟩

/-- C8: a fixed-size array whose length literal fails to parse makes the
whole operation fail with a position-annotated "bad array size" error (no
crash, no model); a sign-free literal that parses yields a non-negative
length and an ArrayType with exactly that length. -/
theorem c8_array_length :
    (∀ (imports : List (String × String)) (pkg : String) (apos lpos : Pos)
        (value : String) (elt : Expr) (emsg : String),
      goAtoi value = .error emsg →
      parseType imports pkg (.arrayType apos (some (.basicLit lpos value)) elt)
        = .error (.posErr lpos.filename lpos.line lpos.col ("bad array size: " ++ emsg)))
    ∧ (∀ (imports : List (String × String)) (pkg : String) (apos lpos : Pos)
        (value : String) (elt : Expr) (x : Int) (t : Ty),
      hasSign value = false → goAtoi value = .ok x → parseType imports pkg elt = .ok t →
      0 ≤ x ∧ parseType imports pkg (.arrayType apos (some (.basicLit lpos value)) elt)
        = .ok (.arrayType x t)) := by
  constructor
  · intro imports pkg apos lpos value elt emsg h
    simp [parseType, h, errorf, bind, Except.bind]
  · intro imports pkg apos lpos value elt x t hsg hok hel
    have hx : 0 ≤ x := goAtoi_nonneg hsg hok
    refine ⟨hx, ?_⟩
    have hne : ¬(x = -1) := by omega
    simp [parseType, hok, hel, hne, bind, Except.bind, pure, Except.pure]

/-- C8 witness: the literal "0x10" fails with a position-annotated bad-array-
size error; the literal "3" yields an ArrayType of length 3. -/
theorem c8_array_length_witness :
    (goAtoi "0x10" = .error "strconv.Atoi: parsing \"0x10\": invalid syntax"
      ∧ parseType [] "mypkg"
          (.arrayType pos0 (some (.basicLit ⟨"f.go", 2, 5⟩ "0x10")) (.ident pos0 "int"))
        = .error (.posErr "f.go" 2 5
            "bad array size: strconv.Atoi: parsing \"0x10\": invalid syntax"))
    ∧ (hasSign "3" = false ∧ goAtoi "3" = .ok 3
      ∧ parseType [] "mypkg" (.ident pos0 "int") = .ok (.predeclaredType "int")
      ∧ 0 ≤ (3 : Int)
      ∧ parseType [] "mypkg"
          (.arrayType pos0 (some (.basicLit ⟨"f.go", 2, 5⟩ "3")) (.ident pos0 "int"))
        = .ok (.arrayType 3 (.predeclaredType "int"))) := by
  have hint : parseType [] "mypkg" (.ident pos0 "int") = .ok (.predeclaredType "int") := by
    simp [parseType, isExported, pure, Except.pure]
  have hatoi : goAtoi "0x10" = .error "strconv.Atoi: parsing \"0x10\": invalid syntax" := rfl
  have h3 : goAtoi "3" = .ok 3 := rfl
  have hbad := c8_array_length.1 [] "mypkg" pos0 ⟨"f.go", 2, 5⟩ "0x10" (.ident pos0 "int")
    "strconv.Atoi: parsing \"0x10\": invalid syntax" hatoi
  have hgood := c8_array_length.2 [] "mypkg" pos0 ⟨"f.go", 2, 5⟩ "3" (.ident pos0 "int")
    3 (.predeclaredType "int") (by decide) h3 hint
  exact ⟨⟨hatoi, hbad⟩, by decide, h3, hint, hgood.1, hgood.2⟩

/-- C10: Chan rendering uses the "<-chan " prefix exactly for the receive
direction, "chan<- " exactly for the send direction, and "chan " for every
other direction value; the walker assigns the zero direction to the
bidirectional channel syntax (ast.SEND|ast.RECV). -/
theorem c10_chan_rendering :
    (∀ (pt : PackageTable) (d : ChanDir) (t : Ty),
      (d = RecvDirection → Ty.string pt (.chanType d t) = "<-chan " ++ Ty.string pt t)
      ∧ (d = SendDirection → Ty.string pt (.chanType d t) = "chan<- " ++ Ty.string pt t)
      ∧ (d ≠ RecvDirection → d ≠ SendDirection →
          Ty.string pt (.chanType d t) = "chan " ++ Ty.string pt t))
    ∧ (∀ (imports : List (String × String)) (pkg : String) (cpos : Pos)
        (value : Expr) (t : Ty),
      parseType imports pkg value = .ok t →
      parseType imports pkg (.chanType cpos (astSEND + astRECV) value)
        = .ok (.chanType 0 t)) := by
  constructor
  · intro pt d t
    refine ⟨fun h => ?_, fun h => ?_, fun h1 h2 => ?_⟩
    · subst h
      simp [Ty.string]
    · subst h
      simp [Ty.string, RecvDirection, SendDirection]
    · simp [Ty.string, h1, h2]
  · intro imports pkg cpos value t h
    simp [parseType, h, astSEND, astRECV, SendDirection, RecvDirection, bind, Except.bind,
      pure, Except.pure]

/-- C10 witness: the three rendering directions on a concrete channel of int,
and the walker on concrete bidirectional channel syntax. -/
theorem c10_chan_rendering_witness :
    (Ty.string [] (.chanType RecvDirection (.predeclaredType "int"))
        = "<-chan " ++ Ty.string [] (.predeclaredType "int")
      ∧ Ty.string [] (.chanType SendDirection (.predeclaredType "int"))
        = "chan<- " ++ Ty.string [] (.predeclaredType "int")
      ∧ Ty.string [] (.chanType 0 (.predeclaredType "int"))
        = "chan " ++ Ty.string [] (.predeclaredType "int"))
    ∧ (parseType [] "mypkg" (.ident pos0 "int") = .ok (.predeclaredType "int")
      ∧ parseType [] "mypkg" (.chanType pos0 (astSEND + astRECV) (.ident pos0 "int"))
          = .ok (.chanType 0 (.predeclaredType "int"))) := by
  have hint : parseType [] "mypkg" (.ident pos0 "int") = .ok (.predeclaredType "int") := by
    simp [parseType, isExported, pure, Except.pure]
  exact ⟨⟨(c10_chan_rendering.1 [] RecvDirection (.predeclaredType "int")).1 rfl,
      (c10_chan_rendering.1 [] SendDirection (.predeclaredType "int")).2.1 rfl,
      (c10_chan_rendering.1 [] 0 (.predeclaredType "int")).2.2 (by decide) (by decide)⟩,
    hint, c10_chan_rendering.2 [] "mypkg" pos0 (.ident pos0 "int") (.predeclaredType "int") hint⟩
